import Mathlib

/-!
Shallow embedding of the personalpage backend (several near-duplicate Express
variants) and proofs about its operations.

Conventions:
  * The `users` table / Sequelize `User` model is embedded as a list of
    `Account` records; the `comments` table / `Message` model as a list of
    `Comment` records.  SQL statements acting on them become pure functions
    returning the response together with the new table state.
  * HTTP JSON responses are embedded as small structures carrying the status
    code and the fields the handlers actually set.
  * JavaScript string truthiness (`!s` is true for `undefined` and `""`) is
    embedded by `jsTruthyStr` on `Option String` where `none` stands for
    `undefined`.
-/

namespace PersonalPage

/-- A row of the `users` table (`id SERIAL, username TEXT UNIQUE, password
TEXT, avatar TEXT`); also the Sequelize `User` model, whose `passwordHash`
column is embedded in the same `password` field. -/
structure Account where
  id : Nat
  username : String
  password : String
  avatar : Option String
deriving DecidableEq, Repr

/-- A row of the `comments` table (`id SERIAL, user_id INTEGER, content TEXT`);
also the Sequelize `Message` model. -/
structure Comment where
  id : Nat
  userId : Nat
  content : String
deriving DecidableEq, Repr

/-- A JSON response envelope: HTTP status plus the `success` flag and the
optional `message`/`error` string the handlers attach. -/
structure Resp where
  status : Nat
  success : Bool
  message : Option String
deriving DecidableEq, Repr

/-- JavaScript truthiness of an optional string: `undefined` (`none`) and the
empty string are falsy. -/
def jsTruthyStr : Option String → Bool
  | none => false
  | some s => s ≠ ""

/-- Embeds `SELECT * FROM users WHERE username=$1 AND password=$2` (first
matching row, as `result.rows[0]`). -/
def findUser (store : List Account) (u p : String) : Option Account :=
  store.find? (fun a => a.username == u && a.password == p)

/-- Embeds the `users.username` UNIQUE constraint check: does some row already
carry this username? -/
def usernameTaken (store : List Account) (u : String) : Bool :=
  store.any (fun a => a.username == u)

/-- Outcome of a registration: either the freshly inserted row, or the unique
constraint fired (surfaced by the handlers as a generic 500). -/
inductive RegOutcome where
  | created (row : Account)
  | conflict
deriving DecidableEq, Repr

/-- Embeds `POST /register` (pg variants): `INSERT INTO users (username,
password[, avatar]) VALUES ... RETURNING *`.  The UNIQUE constraint on
`username` makes the insert fail when the name is taken; otherwise the new row
(plaintext password, as in the source) is appended and returned. -/
def registerPg (store : List Account) (nextId : Nat) (u p : String)
    (av : Option String) : RegOutcome × List Account :=
  if usernameTaken store u then (.conflict, store)
  else
    let row : Account := ⟨nextId, u, p, av⟩
    (.created row, store ++ [row])

/-- Embeds `POST /api/users` (Sequelize variant): `bcrypt.hash(password, 10)`
is stored instead of the plaintext.  The hash function is a parameter of the
embedding; the handler only ever compares hashes for equality. -/
def registerSeq (hash : String → String) (store : List Account) (nextId : Nat)
    (u p : String) : RegOutcome × List Account :=
  if usernameTaken store u then (.conflict, store)
  else
    let row : Account := ⟨nextId, u, hash p, none⟩
    (.created row, store ++ [row])

/-- Embeds `POST /login` (pg variants): one SELECT on username AND password;
a matching row becomes `req.session.user` with a 200 `{success:true}`, no row
gives a 200 `{success:false}` body.  The failure message differs per variant
(`none` in the first, `帳號或密碼錯誤` in the others), so it is a parameter. -/
def loginPg (failMsg : Option String) (store : List Account) (u p : String) :
    Resp × Option Account :=
  match findUser store u p with
  | some row => (⟨200, true, none⟩, some row)
  | none => (⟨200, false, failMsg⟩, none)

/-- Embeds `POST /api/login` (Sequelize variant): find by username only, then
`bcrypt.compare(password, user.passwordHash)`; both an unknown username and a
failed compare answer 400 `{error:'Invalid credentials'}`.  On success the
session stores only the user id. -/
def loginSeq (hash : String → String) (store : List Account) (u p : String) :
    Resp × Option Nat :=
  match store.find? (fun a => a.username == u) with
  | none => (⟨400, false, some "Invalid credentials"⟩, none)
  | some user =>
    if user.password == hash p then (⟨200, true, none⟩, some user.id)
    else (⟨400, false, some "Invalid credentials"⟩, none)

/-- The `/me` response: `{loggedIn, user?}` echoing `req.session.user`
verbatim. -/
structure MeResp where
  loggedIn : Bool
  user : Option Account
deriving DecidableEq, Repr

/-- Embeds `GET /me`: returns the session's cached user row unmodified when
present. -/
def me (sessionUser : Option Account) : MeResp :=
  match sessionUser with
  | some u => ⟨true, some u⟩
  | none => ⟨false, none⟩

/-! ### String utilities

The handlers use JavaScript `String.prototype.split`, `.trim`, `.includes`
and `.toLowerCase`, and Node's `path.extname`.  They are embedded here on
`List Char` by structural recursion so that every definition evaluates inside
the kernel. -/

/-- Embeds JS `String.prototype.trim` (ASCII whitespace): drop whitespace from
both ends. -/
def trimChars (cs : List Char) : List Char :=
  ((cs.dropWhile Char.isWhitespace).reverse.dropWhile Char.isWhitespace).reverse

/-- Embeds `s.trim()`. -/
def strTrim (s : String) : String := ⟨trimChars s.data⟩

/-- Embeds JS `String.prototype.includes`: some suffix of the text starts with
the pattern. -/
def listIncl (pat : List Char) : List Char → Bool
  | [] => pat.isEmpty
  | c :: cs => pat.isPrefixOf (c :: cs) || listIncl pat cs

/-- Embeds `s.includes(pat)`. -/
def strIncludes (s pat : String) : Bool := listIncl pat.data s.data

/-- Embeds JS `String.prototype.split` with a non-empty string separator: scan
left to right, cutting at each (leftmost, non-overlapping) occurrence of the
separator.  `fuel` only bounds the recursion; each step consumes at least one
character, so any `fuel ≥ cs.length` gives the full split (and an empty
separator never cuts, instead of splitting into characters as JS would — the
only separator used below is the 13-character `<|assistant|>`). -/
def splitChars (sep : List Char) : Nat → List Char → List (List Char)
  | _, [] => [[]]
  | 0, cs => [cs]
  | fuel + 1, c :: cs =>
    if sep.isPrefixOf (c :: cs) && !sep.isEmpty then
      [] :: splitChars sep fuel (List.drop sep.length (c :: cs))
    else
      match splitChars sep fuel cs with
      | [] => [[c]]
      | h :: t => (c :: h) :: t

/-- Embeds `s.split(sep)`. -/
def splitString (s sep : String) : List String :=
  (splitChars sep.data s.data.length s.data).map fun l => ⟨l⟩

/-- Embeds `s.toLowerCase()` (ASCII letters, which is all the filter below
compares). -/
def strLower (s : String) : String := ⟨s.data.map Char.toLower⟩

/-- The part of a path after its last `/` (the basename `path.extname` works
on). -/
def baseNameChars (cs : List Char) : List Char :=
  (cs.reverse.takeWhile (fun c => c != '/')).reverse

/-- Embeds Node `path.extname` for upload filenames: the substring of the
basename from its last `.` to the end, or `""` when the basename has no dot or
only a leading dot. -/
def extName (s : String) : String :=
  let cs := baseNameChars s.data
  match cs.reverse.findIdx? (fun c => c == '.') with
  | none => ""
  | some k =>
    let i := cs.length - 1 - k
    if i = 0 then "" else ⟨cs.drop i⟩

/-! ### CSRF gate (third `server.js` variant) -/

/-- Embeds the `verifyCsrf` middleware: `req.headers['x-csrf-token']` is
`none` when the header is absent; the request is rejected with 403 when the
token is falsy (absent or empty) or differs from `req.session.csrfToken`. -/
def verifyCsrf (stored : String) (supplied : Option String) : Bool :=
  if !jsTruthyStr supplied || supplied != some stored then false else true

/-! ### Comment ledger -/

/-- Embeds `POST /comment` (pg variants): without `req.session.user` answer
401; otherwise `INSERT INTO comments (user_id, content)`.  A `none` content
(missing body field) becomes SQL NULL and trips the NOT NULL constraint,
surfaced as a 500; any string — including the empty one — is inserted. -/
def createCommentPg (sessionUser : Option Account) (nextId : Nat)
    (store : List Comment) (content : Option String) : Resp × List Comment :=
  match sessionUser with
  | none => (⟨401, false, none⟩, store)
  | some u =>
    match content with
    | none => (⟨500, false, some "null value in column content"⟩, store)
    | some c => (⟨200, true, none⟩, store ++ [⟨nextId, u.id, c⟩])

/-- Embeds `POST /api/messages` (Sequelize variant): 403 without a session;
400 `Message is empty` when `!content` (missing or empty string); otherwise
the message is appended. -/
def createMsgSeq (sessionUserId : Option Nat) (nextId : Nat)
    (store : List Comment) (content : Option String) : Resp × List Comment :=
  match sessionUserId with
  | none => (⟨403, false, some "Not logged in"⟩, store)
  | some uid =>
    if !jsTruthyStr content then (⟨400, false, some "Message is empty"⟩, store)
    else (⟨200, true, none⟩, store ++ [⟨nextId, uid, content.getD ""⟩])

/-- Embeds `DELETE /comment/:id` (pg variants): `DELETE FROM comments WHERE
id=$1 AND user_id=$2`; the response is `{success: rowCount > 0}` and the table
keeps exactly the rows not matching both conditions. -/
def deleteCommentPg (store : List Comment) (accountId commentId : Nat) :
    Bool × List Comment :=
  let matched := store.filter fun c => c.id == commentId && c.userId == accountId
  (decide (0 < matched.length),
   store.filter fun c => !(c.id == commentId && c.userId == accountId))

/-- Embeds `DELETE /api/messages/:id` (Sequelize variant): `findByPk`, then a
single 403 both when the message is absent and when the caller is not its
author; on ownership the row is destroyed. -/
def deleteMsgSeq (store : List Comment) (accountId commentId : Nat) :
    Resp × List Comment :=
  match store.find? (fun c => c.id == commentId) with
  | none => (⟨403, false, some "Not allowed to delete this message"⟩, store)
  | some msg =>
    if msg.userId == accountId then
      (⟨200, true, none⟩, store.filter fun c => !(c.id == commentId))
    else (⟨403, false, some "Not allowed to delete this message"⟩, store)

/-! ### Avatar ingestion file filters -/

/-- An uploaded file as multer presents it: the client-declared name and MIME
type, and the raw bytes (which no filter below reads). -/
structure UploadFile where
  originalname : String
  mimetype : String
  content : List Nat
deriving DecidableEq, Repr

/-- Embeds the `server.js` multer `fileFilter`:
`['image/jpeg', 'image/png'].includes(file.mimetype)`. -/
def mimeFileFilter (f : UploadFile) : Bool :=
  ["image/jpeg", "image/png"].contains f.mimetype

/-- Embeds the Sequelize variant's multer `fileFilter`:
`path.extname(file.originalname).toLowerCase()` must be `.png`, `.jpg` or
`.jpeg`, otherwise the upload is rejected with `Only JPG and PNG allowed`. -/
def extFileFilter (f : UploadFile) : Bool :=
  let ext := strLower (extName f.originalname)
  if ext != ".png" && ext != ".jpg" && ext != ".jpeg" then false else true

/-! ### Oracle proxy (`POST /gpt-alt`) -/

/-- The assistant-turn delimiter the extraction code splits on. -/
def assistantDelim : String := "<|assistant|>"

/-- Embeds the extraction in the third `server.js` variant:
`fullText.includes('<|assistant|>') ? fullText.split('<|assistant|>')[1].trim()
: fullText.trim()`. -/
def extractReply (fullText : String) : String :=
  if strIncludes fullText assistantDelim then
    strTrim ((splitString fullText assistantDelim).getD 1 "")
  else strTrim fullText

/-- Modelled from the spec (the extraction rule the claim restates, not the
code): keep only the text after the LAST occurrence of the delimiter when it
occurs, otherwise the full text trimmed. -/
def specExtract (fullText : String) : String :=
  if strIncludes fullText assistantDelim then
    strTrim ((splitString fullText assistantDelim).getLastD "")
  else strTrim fullText

/-- A parsed Hugging Face response body: an `{"error": ...}` object, an array
whose first element may carry `generated_text`, or a plain object with an
optional `generated_text`.  `none` stands for a missing or non-string field,
and JS truthiness makes `some ""` behave like `none` at the use sites. -/
inductive HfData where
  | errObj (msg : String)
  | arr (generated : Option String)
  | obj (generated : Option String)
deriving DecidableEq, Repr

/-- The upstream body as received: either not parseable as JSON (carrying the
raw parse-error message) or a parsed value. -/
inductive HfRaw where
  | invalid (msg : String)
  | valid (d : HfData)
deriving DecidableEq, Repr

/-- The `/gpt-alt` JSON response: status, `success`, the `result` string when
one is set, and the `error` field when the handler propagates one. -/
structure GptResp where
  status : Nat
  success : Bool
  result : Option String
  error : Option String
deriving DecidableEq, Repr

/-- Embeds `data.error?.includes('Model too busy')`. -/
def hfBusy : HfData → Bool
  | .errObj msg => strIncludes msg "Model too busy"
  | _ => false

/-- Embeds `Array.isArray(data) ? data[0]?.generated_text :
data.generated_text`. -/
def hfFullText : HfData → Option String
  | .errObj _ => none
  | .arr g => g
  | .obj g => g

/-- Embeds the third `server.js` variant's `/gpt-alt` response handling: parse
failure and `Model too busy` each answer 200 with a fixed user-facing
`result`; otherwise a falsy `generated_text` yields the literal `[占卜失敗]`
marker and a truthy one is run through `extractReply`.  The prompt only shapes
the upstream request, never the fallback. -/
def gptAlt (_prompt : String) (raw : HfRaw) : GptResp :=
  match raw with
  | .invalid _ => ⟨200, false, some "📡 模型回傳異常，請稍候再試。", none⟩
  | .valid d =>
    if hfBusy d then ⟨200, false, some "📡 模型忙碌中，請稍候再試。", none⟩
    else
      match hfFullText d with
      | some t =>
        if t = "" then ⟨200, true, some "[占卜失敗]", none⟩
        else ⟨200, true, some (extractReply t), none⟩
      | none => ⟨200, true, some "[占卜失敗]", none⟩

/-- Embeds the plain variant's `/gpt-alt` (part_001): an array whose first
element has a truthy `generated_text` is a success; every other parsed shape
answers the `[HuggingFace 無回應]` marker; a body `response.json()` cannot
parse is re-thrown into the catch, answering 500 with the raw error
message. -/
def gptAltSimple (_prompt : String) (raw : HfRaw) : GptResp :=
  match raw with
  | .invalid msg => ⟨500, false, none, some msg⟩
  | .valid d =>
    match d with
    | .arr (some t) =>
      if t = "" then ⟨200, false, some "[HuggingFace 無回應]", none⟩
      else ⟨200, true, some t, none⟩
    | _ => ⟨200, false, some "[HuggingFace 無回應]", none⟩

/-! ### Helper lemmas -/

theorem splitChars_ne_nil (sep : List Char) :
    ∀ (fuel : Nat) (cs : List Char), splitChars sep fuel cs ≠ [] := by
  intro fuel
  induction fuel with
  | zero => intro cs; cases cs <;> simp [splitChars]
  | succ n ih =>
    intro cs
    cases cs with
    | nil => simp [splitChars]
    | cons c cs =>
      simp only [splitChars]
      split
      · simp
      · split <;> simp

theorem two_le_splitChars (sep : List Char) (hsep : sep ≠ []) :
    ∀ (fuel : Nat) (cs : List Char), cs.length ≤ fuel → listIncl sep cs = true →
      2 ≤ (splitChars sep fuel cs).length := by
  intro fuel
  induction fuel with
  | zero =>
    intro cs hlen hincl
    have : cs = [] := List.eq_nil_of_length_eq_zero (Nat.le_zero.mp hlen)
    subst this
    simp [listIncl, List.isEmpty_iff, hsep] at hincl
  | succ n ih =>
    intro cs hlen hincl
    cases cs with
    | nil => simp [listIncl, List.isEmpty_iff, hsep] at hincl
    | cons c cs =>
      have hne : sep.isEmpty = false := by simp [List.isEmpty_iff, hsep]
      simp only [splitChars]
      by_cases hp : sep.isPrefixOf (c :: cs) = true
      · rw [if_pos (by simp [hp, hne])]
        have := splitChars_ne_nil sep n (List.drop sep.length (c :: cs))
        have hpos : 0 < (splitChars sep n (List.drop sep.length (c :: cs))).length :=
          List.length_pos.mpr this
        simpa using Nat.succ_le_succ hpos
      · rw [if_neg (by simp [hp])]
        have hincl' : listIncl sep cs = true := by
          simp only [listIncl, Bool.or_eq_true] at hincl
          rcases hincl with h | h
          · exact absurd h hp
          · exact h
        have hlen' : cs.length ≤ n := Nat.le_of_succ_le_succ (by simpa using hlen)
        have h2 := ih cs hlen' hincl'
        cases hsp : splitChars sep n cs with
        | nil => exact absurd hsp (splitChars_ne_nil sep n cs)
        | cons h t =>
          rw [hsp] at h2
          show 2 ≤ ((c :: h) :: t).length
          simp only [List.length_cons] at h2 ⊢
          omega

/-! ### Claim theorems -/

/-- C2: for every session with a stored CSRF token and every supplied token,
`verifyCsrf` succeeds exactly on character-for-character equality with the
stored token, and fails (403) when the header is absent or differs in any
character.  The hypothesis `stored ≠ ""` reflects that every token the code
stores is a fresh `crypto.randomUUID()`, never empty (an empty supplied header
is falsy in JS and always rejected). -/
theorem c2_csrf_exact_match (stored : String) (supplied : Option String)
    (hs : stored ≠ "") :
    verifyCsrf stored supplied = true ↔ supplied = some stored := by
  cases supplied with
  | none => simp [verifyCsrf, jsTruthyStr]
  | some t =>
    by_cases ht : t = stored
    · subst ht
      simp [verifyCsrf, jsTruthyStr, hs]
    · simp [verifyCsrf, jsTruthyStr, ht]

theorem c2_witness : verifyCsrf "9b1deb4d-3b7d-4bad" (some "9b1deb4d-3b7d-4bad") = true :=
  (c2_csrf_exact_match "9b1deb4d-3b7d-4bad" (some "9b1deb4d-3b7d-4bad")
    (by decide)).mpr rfl

/-- C3: when some account already holds the username, a second register call
hits the UNIQUE constraint: the insert fails (surfaced by the handlers as a
generic 500) and the users table — in particular its row count — is
unchanged. -/
theorem c3_duplicate_register (store : List Account) (n : Nat) (u p : String)
    (av : Option String) (h : ∃ a ∈ store, a.username = u) :
    registerPg store n u p av = (.conflict, store) ∧
    (registerPg store n u p av).2.length = store.length := by
  have ht : usernameTaken store u = true := by
    rcases h with ⟨a, ha, hu⟩
    exact List.any_eq_true.mpr ⟨a, ha, by simp [hu]⟩
  refine ⟨by simp [registerPg, ht], by simp [registerPg, ht]⟩

theorem c3_witness :
    registerPg [⟨1, "bob", "secret", none⟩] 2 "bob" "other" none =
      (.conflict, [⟨1, "bob", "secret", none⟩]) :=
  (c3_duplicate_register [⟨1, "bob", "secret", none⟩] 2 "bob" "other" none
    ⟨⟨1, "bob", "secret", none⟩, by simp, rfl⟩).1

/-- C4: `DELETE /comment/:id` succeeds exactly when a comment with that id and
that author exists; on success every matching row is gone while every other
row remains; on failure the table is unchanged — and, because the response is
just `{success: rowCount > 0}`, a missing id and an ownership violation are
the same observable failure.  The Sequelize variant answers one fixed 403 for
both failure causes and also leaves the table unchanged. -/
theorem c4_delete_owner_scoped (store : List Comment) (aid cid : Nat) :
    ((deleteCommentPg store aid cid).1 = true ↔
        ∃ c ∈ store, c.id = cid ∧ c.userId = aid) ∧
    ((deleteCommentPg store aid cid).1 = false →
        (deleteCommentPg store aid cid).2 = store) ∧
    (∀ c ∈ (deleteCommentPg store aid cid).2, ¬(c.id = cid ∧ c.userId = aid)) ∧
    (∀ c ∈ store, ¬(c.id = cid ∧ c.userId = aid) →
        c ∈ (deleteCommentPg store aid cid).2) ∧
    ((deleteMsgSeq store aid cid).1.success = false →
        (deleteMsgSeq store aid cid).2 = store ∧
        (deleteMsgSeq store aid cid).1 =
          ⟨403, false, some "Not allowed to delete this message"⟩) := by
  refine ⟨?_, ?_, ?_, ?_, ?_⟩
  · simp only [deleteCommentPg, decide_eq_true_eq, List.length_pos,
      ne_eq, List.filter_eq_nil_iff]
    constructor
    · intro h
      push_neg at h
      rcases h with ⟨c, hc, hp⟩
      exact ⟨c, hc, by simpa using hp⟩
    · intro ⟨c, hc, h1, h2⟩ hall
      exact hall c hc (by simp [h1, h2])
  · intro h
    simp only [deleteCommentPg, decide_eq_false_iff_not, Nat.not_lt,
      Nat.le_zero, List.length_eq_zero, List.filter_eq_nil_iff] at h
    simp only [deleteCommentPg]
    refine List.filter_eq_self.mpr fun c hc => ?_
    have hcc := h c hc
    rw [Bool.not_eq_true] at hcc
    simp [hcc]
  · intro c hc
    simp only [deleteCommentPg] at hc
    have h2 := (List.mem_filter.mp hc).2
    intro hcon
    simp [hcon.1, hcon.2] at h2
  · intro c hc h
    simp only [deleteCommentPg]
    refine List.mem_filter.mpr ⟨hc, ?_⟩
    by_cases h1 : c.id = cid
    · have h2 : ¬c.userId = aid := fun hx => h ⟨h1, hx⟩
      simp [h1, h2]
    · simp [h1]
  · intro h
    simp only [deleteMsgSeq] at h ⊢
    cases hf : store.find? (fun c => c.id == cid) with
    | none => simp
    | some msg =>
      rw [hf] at h
      by_cases hu : msg.userId = aid
      · simp [hu] at h
      · simp [hu]

theorem c4_witness :
    (deleteCommentPg [⟨1, 2, "hi"⟩] 3 1).2 = [⟨1, 2, "hi"⟩] ∧
    ((deleteCommentPg [⟨1, 2, "hi"⟩] 2 1).1 = true) :=
  ⟨(c4_delete_owner_scoped [⟨1, 2, "hi"⟩] 3 1).2.1 (by decide),
   (c4_delete_owner_scoped [⟨1, 2, "hi"⟩] 2 1).1.mpr
     ⟨⟨1, 2, "hi"⟩, by simp, rfl, rfl⟩⟩

/-- C9: the pg variants cache the entire database row in the session —
registration stores the plaintext password it just inserted, login stores the
row the SELECT returned — and `GET /me` echoes that object verbatim, so the
`/me` user object carries the account's stored password. -/
theorem c9_me_returns_stored_password (store : List Account) (m av : Option String)
    (n : Nat) (u p : String) :
    (∀ row s1, registerPg store n u p av = (.created row, s1) →
        row.password = p ∧ me (some row) = ⟨true, some row⟩) ∧
    (∀ row, (loginPg m store u p).2 = some row →
        row ∈ store ∧ row.password = p ∧
        me (loginPg m store u p).2 = ⟨true, some row⟩) := by
  constructor
  · intro row s1 h
    by_cases ht : usernameTaken store u = true
    · simp [registerPg, ht] at h
    · simp [registerPg, ht] at h
      obtain ⟨h1, _⟩ := h
      subst h1
      exact ⟨rfl, rfl⟩
  · intro row h
    simp only [loginPg] at h ⊢
    cases hf : findUser store u p with
    | none => rw [hf] at h; simp at h
    | some r =>
      rw [hf] at h
      have hr : r = row := by simpa using h
      subst hr
      have hmem : r ∈ store := List.mem_of_find?_eq_some hf
      have hpred := List.find?_some hf
      simp only [Bool.and_eq_true, beq_iff_eq] at hpred
      exact ⟨hmem, hpred.2, rfl⟩

theorem c9_witness :
    (⟨1, "bob", "secret", none⟩ : Account) ∈ [⟨1, "bob", "secret", none⟩] ∧
    (⟨1, "bob", "secret", none⟩ : Account).password = "secret" ∧
    me (loginPg none [⟨1, "bob", "secret", none⟩] "bob" "secret").2 =
      ⟨true, some ⟨1, "bob", "secret", none⟩⟩ :=
  (c9_me_returns_stored_password [⟨1, "bob", "secret", none⟩] none none 2
    "bob" "secret").2 ⟨1, "bob", "secret", none⟩ (by decide)

/-- C10: a failed login with an unknown username and a failed login with a
known username but wrong password produce identical responses (status and
body) in both the pg variants (one SELECT covers both causes) and the
Sequelize variant (both code paths answer 400 `Invalid credentials`), so a
caller cannot learn from the failure whether the username exists. -/
theorem c10_login_failures_identical (m : Option String)
    (hash : String → String) (store : List Account) (u1 p1 u2 p2 : String)
    (h1 : ∀ a ∈ store, a.username ≠ u1)
    (_known : ∃ a ∈ store, a.username = u2)
    (h3 : ∀ a ∈ store, a.username = u2 → a.password ≠ p2)
    (h4 : ∀ a ∈ store, a.username = u2 → a.password ≠ hash p2) :
    (loginPg m store u1 p1).1 = (loginPg m store u2 p2).1 ∧
    (loginSeq hash store u1 p1).1 = (loginSeq hash store u2 p2).1 := by
  constructor
  · have hf1 : findUser store u1 p1 = none := by
      refine List.find?_eq_none.mpr fun a ha => ?_
      simp only [Bool.and_eq_true, beq_iff_eq, not_and]
      intro hu _
      exact h1 a ha hu
    have hf2 : findUser store u2 p2 = none := by
      refine List.find?_eq_none.mpr fun a ha => ?_
      simp only [Bool.and_eq_true, beq_iff_eq, not_and]
      intro hu hp
      exact h3 a ha hu hp
    simp [loginPg, hf1, hf2]
  · have hf1 : store.find? (fun a => a.username == u1) = none := by
      refine List.find?_eq_none.mpr fun a ha => ?_
      simp only [beq_iff_eq]
      exact h1 a ha
    rw [loginSeq, loginSeq, hf1]
    cases hf2 : store.find? (fun a => a.username == u2) with
    | none => rfl
    | some user =>
      have hmem : user ∈ store := List.mem_of_find?_eq_some hf2
      have hu : user.username = u2 := by
        have := List.find?_some hf2
        simpa using this
      have hne : (user.password == hash p2) = false := by
        simp only [beq_eq_false_iff_ne, ne_eq]
        exact h4 user hmem hu
      simp [hne]

theorem c10_witness :
    (loginPg (some "帳號或密碼錯誤") [⟨1, "alice", "pw", none⟩] "bob" "x").1 =
      (loginPg (some "帳號或密碼錯誤") [⟨1, "alice", "pw", none⟩] "alice" "wrong").1 ∧
    (loginSeq (fun s => s) [⟨1, "alice", "pw", none⟩] "bob" "x").1 =
      (loginSeq (fun s => s) [⟨1, "alice", "pw", none⟩] "alice" "wrong").1 :=
  c10_login_failures_identical (some "帳號或密碼錯誤") (fun s => s)
    [⟨1, "alice", "pw", none⟩] "bob" "x" "alice" "wrong"
    (by decide) ⟨⟨1, "alice", "pw", none⟩, by simp, rfl⟩ (by decide) (by decide)

/-- C1: login fails — no session is established and the response body is the
variant's failure body — whenever no stored account carries the supplied
username together with the supplied credential, and succeeds, binding the
session to the registered account, when called with the username and password
a preceding successful register accepted.  Covers the pg variants (plaintext
equality in one SELECT) and the Sequelize variant (stored bcrypt hash
comparison, the hash function being a parameter of the embedding). -/
theorem c1_login_after_register (m : Option String) (av : Option String)
    (hash : String → String) (store : List Account) (n : Nat) (u p : String) :
    ((∀ a ∈ store, ¬(a.username = u ∧ a.password = p)) →
        (loginPg m store u p).1.success = false ∧ (loginPg m store u p).2 = none) ∧
    (∀ row s1, registerPg store n u p av = (.created row, s1) →
        (loginPg m s1 u p).1.success = true ∧ (loginPg m s1 u p).2 = some row) ∧
    ((∀ a ∈ store, a.username = u → a.password ≠ hash p) →
        (loginSeq hash store u p).1.success = false ∧
        (loginSeq hash store u p).2 = none) ∧
    (∀ row s1, registerSeq hash store n u p = (.created row, s1) →
        (loginSeq hash s1 u p).1.success = true ∧
        (loginSeq hash s1 u p).2 = some row.id) := by
  refine ⟨?_, ?_, ?_, ?_⟩
  · intro h
    have hf : findUser store u p = none := by
      refine List.find?_eq_none.mpr fun a ha => ?_
      simp only [Bool.and_eq_true, beq_iff_eq, not_and]
      intro hu hp
      exact h a ha ⟨hu, hp⟩
    simp [loginPg, hf]
  · intro row s1 hreg
    by_cases ht : usernameTaken store u = true
    · simp [registerPg, ht] at hreg
    · have ht' : usernameTaken store u = false := by simpa using ht
      simp only [registerPg, ht', if_neg, Bool.false_eq_true, not_false_iff,
        ite_false, Prod.mk.injEq, RegOutcome.created.injEq] at hreg
      obtain ⟨hrow, hs1⟩ := hreg
      subst hrow
      subst hs1
      have hnone : findUser store u p = none := by
        refine List.find?_eq_none.mpr fun a ha => ?_
        have := List.any_eq_false.mp ht' a ha
        simp only [Bool.and_eq_true, beq_iff_eq, not_and]
        intro hu
        exact absurd (by simp [hu]) this
      have hfind : findUser (store ++ [⟨n, u, p, av⟩]) u p =
          some ⟨n, u, p, av⟩ := by
        unfold findUser at hnone ⊢
        rw [List.find?_append, hnone]
        simp
      simp [loginPg, hfind]
  · intro h
    cases hf : store.find? (fun a => a.username == u) with
    | none => simp [loginSeq, hf]
    | some user =>
      have hmem := List.mem_of_find?_eq_some hf
      have hu : user.username = u := by simpa using List.find?_some hf
      have hne : (user.password == hash p) = false := by
        simp only [beq_eq_false_iff_ne, ne_eq]
        exact h user hmem hu
      simp [loginSeq, hf, hne]
  · intro row s1 hreg
    by_cases ht : usernameTaken store u = true
    · simp [registerSeq, ht] at hreg
    · have ht' : usernameTaken store u = false := by simpa using ht
      simp only [registerSeq, ht', Bool.false_eq_true, not_false_iff,
        ite_false, Prod.mk.injEq, RegOutcome.created.injEq] at hreg
      obtain ⟨hrow, hs1⟩ := hreg
      subst hrow
      subst hs1
      have hnone : (store.find? fun a => a.username == u) = none := by
        refine List.find?_eq_none.mpr fun a ha => ?_
        have := List.any_eq_false.mp ht' a ha
        simpa using this
      have hfind : (List.find? (fun a => a.username == u)
          (store ++ [(⟨n, u, hash p, none⟩ : Account)])) =
          some ⟨n, u, hash p, none⟩ := by
        rw [List.find?_append, hnone]
        simp
      simp [loginSeq, hfind]

theorem c1_witness :
    (loginPg none ([] : List Account) "bob" "wrong").1.success = false ∧
    (loginPg none [⟨1, "bob", "secret", none⟩] "bob" "secret").2 =
      some ⟨1, "bob", "secret", none⟩ ∧
    (loginSeq (fun s => s) [⟨1, "bob", "secret", none⟩] "bob" "secret").2 =
      some 1 :=
  ⟨((c1_login_after_register none none (fun s => s) [] 1 "bob" "wrong").1
      (by simp)).1,
   ((c1_login_after_register none none (fun s => s) [] 1 "bob" "secret").2.1
      ⟨1, "bob", "secret", none⟩ [⟨1, "bob", "secret", none⟩] (by decide)).2,
   ((c1_login_after_register none none (fun s => s) [] 1 "bob" "secret").2.2.2
      ⟨1, "bob", "secret", none⟩ [⟨1, "bob", "secret", none⟩] (by decide)).2⟩

/-- C5 (amended): the extraction keeps the split segment at index 1 — the
text after the FIRST occurrence of the delimiter and before the second —
trimmed, not the text after the last occurrence; the claim's after-the-last
rule therefore holds exactly when the delimiter occurs at most once in the
raw text (at most two split parts), and without the delimiter the full text
is kept trimmed. -/
theorem c5_extract_after_first (s : String)
    (h : (splitString s assistantDelim).length ≤ 2) :
    extractReply s = specExtract s := by
  cases hincl : strIncludes s assistantDelim with
  | false => simp [extractReply, specExtract, hincl]
  | true =>
    have h2 : 2 ≤ (splitString s assistantDelim).length := by
      have := two_le_splitChars assistantDelim.data (by decide)
        s.data.length s.data le_rfl hincl
      simpa [splitString] using this
    have hlen : (splitString s assistantDelim).length = 2 := le_antisymm h h2
    obtain ⟨a, b, hab⟩ := List.length_eq_two.mp hlen
    simp [extractReply, specExtract, hincl, hab, List.getLastD]

theorem c5_witness :
    (splitString "hi<|assistant|> there " assistantDelim).length ≤ 2 ∧
    extractReply "hi<|assistant|> there " = specExtract "hi<|assistant|> there " :=
  ⟨by decide, c5_extract_after_first "hi<|assistant|> there " (by decide)⟩

theorem c5_counter :
    extractReply "a<|assistant|>b<|assistant|>c" = "b" ∧
    specExtract "a<|assistant|>b<|assistant|>c" = "c" ∧
    ("b" : String) ≠ "c" :=
  ⟨by decide, by decide, by decide⟩

/-- C6 (amended): in the fortune-teller variant an unparseable upstream body
and a busy provider each yield a non-error 200 response with a fixed
user-facing fallback string — the raw error is never propagated — and a
structurally valid body with missing or empty generated text yields the
literal `[占卜失敗]` marker, all independently of the prompt; the plain
variant yields its `[HuggingFace 無回應]` marker for every parsed body
without generated text, but propagates the raw error message as a 500 when
the body cannot be parsed. -/
theorem c6_fallback_handling (prompt msg : String) (d : HfData) (g : Option String) :
    (gptAlt prompt (.invalid msg) =
        ⟨200, false, some "📡 模型回傳異常，請稍候再試。", none⟩) ∧
    (hfBusy d = true →
        gptAlt prompt (.valid d) =
          ⟨200, false, some "📡 模型忙碌中，請稍候再試。", none⟩) ∧
    (hfBusy d = false → (hfFullText d).getD "" = "" →
        gptAlt prompt (.valid d) = ⟨200, true, some "[占卜失敗]", none⟩) ∧
    (gptAltSimple prompt (.invalid msg) = ⟨500, false, none, some msg⟩) ∧
    (gptAltSimple prompt (.valid (.arr none)) =
        ⟨200, false, some "[HuggingFace 無回應]", none⟩ ∧
      gptAltSimple prompt (.valid (.arr (some ""))) =
        ⟨200, false, some "[HuggingFace 無回應]", none⟩ ∧
      gptAltSimple prompt (.valid (.obj g)) =
        ⟨200, false, some "[HuggingFace 無回應]", none⟩ ∧
      gptAltSimple prompt (.valid (.errObj msg)) =
        ⟨200, false, some "[HuggingFace 無回應]", none⟩) := by
  refine ⟨rfl, ?_, ?_, rfl, rfl, rfl, ?_, rfl⟩
  · intro h
    simp [gptAlt, h]
  · intro h1 h2
    cases hft : hfFullText d with
    | none => simp [gptAlt, h1, hft]
    | some t =>
      rw [hft] at h2
      simp only [Option.getD_some] at h2
      simp [gptAlt, h1, hft, h2]
  · cases g <;> rfl

theorem c6_witness :
    gptAlt "hello" (.valid (.errObj "Model too busy")) =
      ⟨200, false, some "📡 模型忙碌中，請稍候再試。", none⟩ ∧
    gptAlt "hello" (.valid (.arr (some ""))) =
      ⟨200, true, some "[占卜失敗]", none⟩ :=
  ⟨(c6_fallback_handling "hello" "x" (.errObj "Model too busy") none).2.1
      (by decide),
   (c6_fallback_handling "hello" "x" (.arr (some "")) none).2.2.1
      (by decide) (by decide)⟩

theorem c6_counter :
    gptAltSimple "hello" (.invalid "Unexpected token < in JSON") =
      ⟨500, false, none, some "Unexpected token < in JSON"⟩ ∧
    (gptAltSimple "hello" (.invalid "Unexpected token < in JSON")).error ≠
      none ∧
    (gptAltSimple "hello" (.invalid "Unexpected token < in JSON")).status ≠
      200 :=
  ⟨rfl, by decide, by decide⟩

/-- C7: both upload filters decide from the declared filename/MIME type alone
— never from the bytes — accepting exactly the {jpg, jpeg, png} allow-set:
the `server.js` filter accepts exactly the MIME types image/jpeg and
image/png, the Sequelize filter accepts exactly the lower-cased extensions
.png, .jpg, .jpeg; in particular a gif upload is rejected and a png upload
with the same byte content is accepted. -/
theorem c7_avatar_allow_set (f : UploadFile) (nm mt : String) (b1 b2 : List Nat) :
    (mimeFileFilter f = true ↔
        f.mimetype = "image/jpeg" ∨ f.mimetype = "image/png") ∧
    (extFileFilter f = true ↔
        (strLower (extName f.originalname) = ".png" ∨
         strLower (extName f.originalname) = ".jpg" ∨
         strLower (extName f.originalname) = ".jpeg")) ∧
    (mimeFileFilter ⟨nm, mt, b1⟩ = mimeFileFilter ⟨nm, mt, b2⟩) ∧
    (extFileFilter ⟨nm, mt, b1⟩ = extFileFilter ⟨nm, mt, b2⟩) ∧
    (mimeFileFilter ⟨"cat.gif", "image/gif", b1⟩ = false ∧
     extFileFilter ⟨"cat.gif", "image/gif", b1⟩ = false ∧
     mimeFileFilter ⟨"cat.png", "image/png", b1⟩ = true ∧
     extFileFilter ⟨"cat.png", "image/png", b1⟩ = true) := by
  refine ⟨?_, ?_, rfl, rfl, rfl, rfl, rfl, rfl⟩
  · simp [mimeFileFilter]
  · constructor
    · intro h
      by_contra hc
      push_neg at hc
      obtain ⟨h1, h2, h3⟩ := hc
      simp [extFileFilter, h1, h2, h3] at h
    · intro h
      rcases h with h | h | h <;> simp [extFileFilter, h]

/-- C8 (amended): without a session both comment-creation handlers refuse
(401 in the pg variants, 403 in the Sequelize variant) and leave the table
unchanged; with a session the Sequelize variant rejects empty or missing text
with 400 `Message is empty`, while the pg variants perform no emptiness check
— every supplied string, the empty one included, is inserted, and only a
missing content field fails (NOT NULL violation surfaced as 500); a comment
is appended exactly in the passing cases. -/
theorem c8_create_validation (n : Nat) (store : List Comment)
    (content : Option String) (u : Account) (uid : Nat) :
    (createCommentPg none n store content = (⟨401, false, none⟩, store)) ∧
    (createMsgSeq none n store content =
        (⟨403, false, some "Not logged in"⟩, store)) ∧
    (createMsgSeq (some uid) n store (some "") =
        (⟨400, false, some "Message is empty"⟩, store)) ∧
    (createMsgSeq (some uid) n store none =
        (⟨400, false, some "Message is empty"⟩, store)) ∧
    (∀ s, s ≠ "" → createMsgSeq (some uid) n store (some s) =
        (⟨200, true, none⟩, store ++ [⟨n, uid, s⟩])) ∧
    (∀ s, createCommentPg (some u) n store (some s) =
        (⟨200, true, none⟩, store ++ [⟨n, u.id, s⟩])) ∧
    ((createCommentPg (some u) n store none).1.status = 500 ∧
     (createCommentPg (some u) n store none).2 = store) := by
  refine ⟨rfl, rfl, by simp [createMsgSeq, jsTruthyStr], rfl, ?_, fun s => rfl,
    rfl, rfl⟩
  intro s hs
  simp [createMsgSeq, jsTruthyStr, hs]

theorem c8_witness :
    createMsgSeq (some 7) 1 [] (some "hi") = (⟨200, true, none⟩, [⟨1, 7, "hi"⟩]) :=
  (c8_create_validation 1 [] none ⟨7, "bob", "pw", none⟩ 7).2.2.2.2.1 "hi"
    (by decide)

theorem c8_counter :
    (createCommentPg (some ⟨7, "bob", "pw", none⟩) 1 [] (some "")).1.success =
      true ∧
    (createCommentPg (some ⟨7, "bob", "pw", none⟩) 1 [] (some "")).2 =
      [⟨1, 7, ""⟩] :=
  ⟨rfl, rfl⟩

end PersonalPage
